import Mathlib

/-!
Shallow embedding of the task-tracker CLI (`src/main.go`, first program
version: global `taskList`, one deferred `saveTasks` in `main`).

Modelling conventions:
* Go `int` fields (`ID`, `NextID`) become `Int`; the program only ever
  increments `NextID` by one per process run, far from any overflow, so the
  embedding uses exact integers.
* `time.Time` values become `Int` (an instant); Go serializes them as
  RFC3339Nano strings, an injective encoding, modelled by the `Json.time`
  constructor.
* Go errors become `Option String` (the `fmt.Errorf` message) paired with the
  resulting collection, mirroring in-place mutation through the global
  `taskList` pointer; `listTasks` mutates nothing and is modelled as a
  function returning the displayed rows.
* The storage file `tasks.json` is modelled at the value level: `none` means
  the file does not exist, `FileContent.emptyFile` a zero-length file,
  `FileContent.jsonFile j` well-formed JSON bytes denoting the value `j`, and
  `FileContent.malformed` bytes that `json.Unmarshal` rejects.
* `os.Exit(1)` (reached via `fatal`, `requireArgs` and the usage path) does
  not run deferred functions in Go, so in `runMain` those paths return the
  incoming file unchanged; only a normal return runs the deferred
  `saveTasks`.
-/

namespace TaskTracker

/-- Go struct `Task` (src/main.go lines 13-19). -/
structure Task where
  id : Int
  description : String
  status : String
  createdAt : Int
  updatedAt : Int
deriving DecidableEq, Repr

/-- Go struct `TaskList` (src/main.go lines 22-25). -/
structure TaskList where
  tasks : List Task
  nextID : Int
deriving DecidableEq, Repr

/-- Constant `StatusTodo` (src/main.go line 28). -/
def StatusTodo : String := "todo"

/-- Constant `StatusInProgress` (src/main.go line 29). -/
def StatusInProgress : String := "in-progress"

/-- Constant `StatusDone` (src/main.go line 30). -/
def StatusDone : String := "done"

/-- The error message of `fmt.Errorf("task with ID %d not found", id)`
(src/main.go lines 135, 157, 168). -/
def notFoundMsg (id : Int) : String :=
  "task with ID " ++ toString id ++ " not found"

/-- The error message of the invalid-filter `fmt.Errorf` (src/main.go
line 195). -/
def invalidFilterMsg (f : String) : String :=
  "invalid filter: " ++ f ++ ". Valid filters are: todo, in-progress, done"

/-- The loop of `findTaskByID` (src/main.go lines 105-109): first task with
the given ID, `none` when absent. -/
def findByID : List Task → Int → Option Task
  | [], _ => none
  | t :: ts, id => if t.id == id then some t else findByID ts id

/-- `(tl *TaskList) findTaskByID` (src/main.go lines 104-111). -/
def TaskList.findTaskByID (tl : TaskList) (id : Int) : Option Task :=
  findByID tl.tasks id

/-- Mutation through the pointer returned by `findTaskByID`: replace the
first task whose ID matches by `f` of it, leave the rest alone. -/
def setFirstByID : List Task → Int → (Task → Task) → List Task
  | [], _, _ => []
  | t :: ts, id, f => if t.id == id then f t :: ts else t :: setFirstByID ts id f

/-- The slice surgery in `deleteTask`'s loop (src/main.go lines 148-154):
remove the first task with the given ID; `none` when no task matches. -/
def removeFirstByID : List Task → Int → Option (List Task)
  | [], _ => none
  | t :: ts, id =>
      if t.id == id then some ts
      else (removeFirstByID ts id).map (fun l => t :: l)

/-- `addTask` (src/main.go lines 114-129): allocate `NextID`, append the new
todo task, increment `NextID`. Returns the printed new ID and the updated
collection; the Go function's error is always nil. -/
def addTask (tl : TaskList) (description : String) (now : Int) : Int × TaskList :=
  let task : Task :=
    { id := tl.nextID, description := description, status := StatusTodo,
      createdAt := now, updatedAt := now }
  (task.id, { tasks := tl.tasks ++ [task], nextID := tl.nextID + 1 })

/-- `updateTask` (src/main.go lines 132-143): look up the task, error when
absent, otherwise overwrite its description and `UpdatedAt` in place. -/
def updateTask (tl : TaskList) (id : Int) (description : String) (now : Int) :
    Option String × TaskList :=
  match tl.findTaskByID id with
  | none => (some (notFoundMsg id), tl)
  | some _ =>
      (none,
       { tl with tasks := (setFirstByID tl.tasks id
           (fun t => { t with description := description, updatedAt := now })) })

/-- `deleteTask` (src/main.go lines 146-162): remove the first task with the
given ID, error when no task matches; `NextID` is untouched. -/
def deleteTask (tl : TaskList) (id : Int) : Option String × TaskList :=
  match removeFirstByID tl.tasks id with
  | none => (some (notFoundMsg id), tl)
  | some ts => (none, { tl with tasks := ts })

/-- `markTask` (src/main.go lines 165-176): look up the task, error when
absent, otherwise overwrite its status (with whatever string was passed) and
`UpdatedAt` in place. -/
def markTask (tl : TaskList) (id : Int) (status : String) (now : Int) :
    Option String × TaskList :=
  match tl.findTaskByID id with
  | none => (some (notFoundMsg id), tl)
  | some _ =>
      (none,
       { tl with tasks := (setFirstByID tl.tasks id
           (fun t => { t with status := status, updatedAt := now })) })

/-- The `filters` map of `listTasks` (src/main.go lines 186-191): the match
predicate for a filter string, `none` for a key outside the map. The Go map
has four distinct literal keys, so lookup is this decision chain. -/
def listFilters (filter : String) : Option (Task → Bool) :=
  if filter = "" then some (fun _ => true)
  else if filter = StatusTodo then some (fun t => t.status == StatusTodo)
  else if filter = StatusInProgress then some (fun t => t.status == StatusInProgress)
  else if filter = StatusDone then some (fun t => t.status == StatusDone)
  else none

/-- `listTasks` (src/main.go lines 179-225), modelled as the rows it prints:
an empty collection returns early (before the filter is even looked up);
otherwise an unknown filter is an error and a known one selects the matching
tasks in order. The Go function reads but never writes `taskList`. -/
def listTasks (tl : TaskList) (filter : String) : Except String (List Task) :=
  if tl.tasks.length = 0 then .ok []
  else
    match listFilters filter with
    | none => .error (invalidFilterMsg filter)
    | some match_ => .ok (tl.tasks.filter match_)

/-! ### JSON serialization (encoding/json at the value level) -/

/-- A JSON value. `time t` stands for the RFC3339Nano string Go emits for the
instant `t` (`time.Time` marshalling), an injective encoding kept abstract. -/
inductive Json where
  | null : Json
  | num : Int → Json
  | str : String → Json
  | time : Int → Json
  | arr : List Json → Json
  | obj : List (String × Json) → Json

/-- First binding of a key in a JSON object, as `encoding/json` resolves
fields (the objects `saveTasks` writes have distinct keys). -/
def lookupField (fields : List (String × Json)) (key : String) : Option Json :=
  (fields.find? (fun p => p.1 == key)).map (fun p => p.2)

/-- `json.Marshal` of a `Task`: struct fields in declaration order with their
json tags (src/main.go lines 13-19). -/
def marshalTask (t : Task) : Json :=
  .obj [("id", .num t.id), ("description", .str t.description),
        ("status", .str t.status), ("createdAt", .time t.createdAt),
        ("updatedAt", .time t.updatedAt)]

/-- `json.Marshal` of a `TaskList` (src/main.go lines 22-25). -/
def marshalTaskList (tl : TaskList) : Json :=
  .obj [("tasks", .arr (tl.tasks.map marshalTask)), ("nextId", .num tl.nextID)]

/-- `json.Unmarshal` of one task element into a zero `Task`: JSON null is a
no-op, a missing field keeps the zero value, a type mismatch is an error. -/
def unmarshalTask (j : Json) : Except String Task :=
  match j with
  | .null => .ok { id := 0, description := "", status := "", createdAt := 0, updatedAt := 0 }
  | .obj fs =>
      match (match lookupField fs "id" with
             | none => Except.ok (0 : Int)
             | some .null => Except.ok (0 : Int)
             | some (.num n) => Except.ok n
             | some _ => Except.error "cannot unmarshal field id") with
      | .error e => .error e
      | .ok i =>
        match (match lookupField fs "description" with
               | none => Except.ok ""
               | some .null => Except.ok ""
               | some (.str s) => Except.ok s
               | some _ => Except.error "cannot unmarshal field description") with
        | .error e => .error e
        | .ok d =>
          match (match lookupField fs "status" with
                 | none => Except.ok ""
                 | some .null => Except.ok ""
                 | some (.str s) => Except.ok s
                 | some _ => Except.error "cannot unmarshal field status") with
          | .error e => .error e
          | .ok s =>
            match (match lookupField fs "createdAt" with
                   | none => Except.ok (0 : Int)
                   | some .null => Except.ok (0 : Int)
                   | some (.time t) => Except.ok t
                   | some _ => Except.error "cannot unmarshal field createdAt") with
            | .error e => .error e
            | .ok c =>
              match (match lookupField fs "updatedAt" with
                     | none => Except.ok (0 : Int)
                     | some .null => Except.ok (0 : Int)
                     | some (.time t) => Except.ok t
                     | some _ => Except.error "cannot unmarshal field updatedAt") with
              | .error e => .error e
              | .ok u =>
                  .ok { id := i, description := d, status := s, createdAt := c, updatedAt := u }
  | _ => .error "cannot unmarshal into Task"

/-- Element-wise unmarshalling of a JSON array into `[]Task`. -/
def unmarshalTasks : List Json → Except String (List Task)
  | [] => .ok []
  | j :: js =>
      match unmarshalTask j with
      | .error e => .error e
      | .ok t =>
          match unmarshalTasks js with
          | .error e => .error e
          | .ok ts => .ok (t :: ts)

/-- `json.Unmarshal(data, tl)` into the preset `TaskList{Tasks: [], NextID: 1}`
(src/main.go lines 61-64, 80): missing fields keep the presets, null is a
no-op, non-object top level is a parse error. -/
def unmarshalTaskList (j : Json) : Except String TaskList :=
  match j with
  | .null => .ok { tasks := [], nextID := 1 }
  | .obj fs =>
      match (match lookupField fs "tasks" with
             | none => Except.ok ([] : List Task)
             | some .null => Except.ok ([] : List Task)
             | some (.arr js) => unmarshalTasks js
             | some _ => Except.error "cannot unmarshal field tasks") with
      | .error e => .error e
      | .ok ts =>
          match (match lookupField fs "nextId" with
                 | none => Except.ok (1 : Int)
                 | some .null => Except.ok (1 : Int)
                 | some (.num n) => Except.ok n
                 | some _ => Except.error "cannot unmarshal field nextId") with
          | .error e => .error e
          | .ok n => .ok { tasks := ts, nextID := n }
  | _ => .error "cannot unmarshal into TaskList"

/-- The bytes of `tasks.json`: `emptyFile` a zero-length file, `jsonFile j`
well-formed JSON text denoting `j`, `malformed` text `json.Unmarshal`
rejects outright. A missing file is `Option.none` one level up. -/
inductive FileContent where
  | emptyFile : FileContent
  | jsonFile : Json → FileContent
  | malformed : FileContent

/-- The fresh collection `loadTasks` presets (src/main.go lines 61-64). -/
def freshTaskList : TaskList := { tasks := [], nextID := 1 }

/-- `loadTasks` (src/main.go lines 60-86): a missing or zero-length file
yields the fresh collection; unparseable content is an error; otherwise the
JSON value is unmarshalled into the preset collection. -/
def loadTasks (file : Option FileContent) : Except String TaskList :=
  match file with
  | none => .ok freshTaskList
  | some .emptyFile => .ok freshTaskList
  | some .malformed => .error "error parsing tasks file"
  | some (.jsonFile j) =>
      match unmarshalTaskList j with
      | .error e => .error ("error parsing tasks file: " ++ e)
      | .ok tl => .ok tl

/-- `saveTasks` (src/main.go lines 89-101): write the marshalled collection.
`MarshalIndent` on this type never fails; a successful write is assumed. -/
def saveTasks (tl : TaskList) : FileContent :=
  .jsonFile (marshalTaskList tl)

/-- `strconv.Atoi` (called by `parseID`, src/main.go lines 48-50): an
optional sign followed by at least one decimal digit; anything else is an
error (the int64 range bound is not modelled). -/
def goAtoiDigits : List Char → Nat → Option Nat
  | [], acc => some acc
  | c :: cs, acc =>
      if c.isDigit then goAtoiDigits cs (acc * 10 + (c.toNat - 48)) else none

/-- `strconv.Atoi` on a whole string. -/
def goAtoi (s : String) : Option Int :=
  match s.toList with
  | [] => none
  | '+' :: cs =>
      match cs with
      | [] => none
      | _ => (goAtoiDigits cs 0).map Int.ofNat
  | '-' :: cs =>
      match cs with
      | [] => none
      | _ => (goAtoiDigits cs 0).map (fun n => -(Int.ofNat n))
  | cs => (goAtoiDigits cs 0).map Int.ofNat

/-- Outcome of one process run: the exit code and the final `tasks.json`. -/
structure RunResult where
  exitCode : Nat
  file : Option FileContent

/-- `main` (src/main.go lines 242-324) as a function of the initial file and
`os.Args[1:]`. The deferred `saveTasks` (lines 251-255) runs only on a
normal return from `main`; every failure path calls `os.Exit(1)` (via
`fatal`, `requireArgs` or the usage branch), which skips deferred functions,
so those paths leave the file as it was. -/
def runMain (file : Option FileContent) (args : List String) (now : Int) : RunResult :=
  match loadTasks file with
  | .error _ => { exitCode := 1, file := file }
  | .ok tl =>
    match args with
    | [] => { exitCode := 1, file := file }
    | command :: rest =>
      match command, rest with
      | "add", [] => { exitCode := 1, file := file }
      | "add", d :: _ =>
          { exitCode := 0, file := some (saveTasks (addTask tl d now).2) }
      | "update", idArg :: d :: _ =>
          (match goAtoi idArg with
           | none => { exitCode := 1, file := file }
           | some id =>
              match updateTask tl id d now with
              | (some _, _) => { exitCode := 1, file := file }
              | (none, tl') => { exitCode := 0, file := some (saveTasks tl') })
      | "update", _ => { exitCode := 1, file := file }
      | "delete", idArg :: _ =>
          (match goAtoi idArg with
           | none => { exitCode := 1, file := file }
           | some id =>
              match deleteTask tl id with
              | (some _, _) => { exitCode := 1, file := file }
              | (none, tl') => { exitCode := 0, file := some (saveTasks tl') })
      | "delete", [] => { exitCode := 1, file := file }
      | "mark-in-progress", idArg :: _ =>
          (match goAtoi idArg with
           | none => { exitCode := 1, file := file }
           | some id =>
              match markTask tl id StatusInProgress now with
              | (some _, _) => { exitCode := 1, file := file }
              | (none, tl') => { exitCode := 0, file := some (saveTasks tl') })
      | "mark-in-progress", [] => { exitCode := 1, file := file }
      | "mark-done", idArg :: _ =>
          (match goAtoi idArg with
           | none => { exitCode := 1, file := file }
           | some id =>
              match markTask tl id StatusDone now with
              | (some _, _) => { exitCode := 1, file := file }
              | (none, tl') => { exitCode := 0, file := some (saveTasks tl') })
      | "mark-done", [] => { exitCode := 1, file := file }
      | "list", rest' =>
          (match listTasks tl (rest'.headD "") with
           | .error _ => { exitCode := 1, file := file }
           | .ok _ => { exitCode := 0, file := some (saveTasks tl) })
      | _, _ => { exitCode := 1, file := file }

/-! ### Operation sequences for the ID invariant -/

/-- One in-memory mutation of the collection: an `add` (with its timestamp)
or a `delete`. -/
inductive Op where
  | add : String → Int → Op
  | del : Int → Op

/-- Run a sequence of operations, collecting the IDs `addTask` assigns in
order. -/
def runOps : TaskList → List Op → TaskList × List Int
  | tl, [] => (tl, [])
  | tl, Op.add d now :: ops =>
      let r := addTask tl d now
      let rest := runOps r.2 ops
      (rest.1, r.1 :: rest.2)
  | tl, Op.del id :: ops => runOps (deleteTask tl id).2 ops

/-! ### Helper lemmas -/

theorem removeFirstByID_sublist :
    ∀ (l : List Task) (id : Int) (l' : List Task),
      removeFirstByID l id = some l' → l'.Sublist l := by
  intro l
  induction l with
  | nil => intro id l' h; simp [removeFirstByID] at h
  | cons t ts ih =>
    intro id l' h
    by_cases ht : t.id == id
    · simp [removeFirstByID, ht] at h
      subst h
      exact List.sublist_cons_self t ts
    · simp [removeFirstByID, ht] at h
      obtain ⟨l'', h1, h2⟩ := h
      subst h2
      exact (ih id l'' h1).cons₂ t

theorem deleteTask_tasks_sublist (tl : TaskList) (id : Int) :
    ((deleteTask tl id).2).tasks.Sublist tl.tasks := by
  unfold deleteTask
  rcases h : removeFirstByID tl.tasks id with _ | ts
  · simp
  · simpa using removeFirstByID_sublist tl.tasks id ts h

theorem deleteTask_nextID (tl : TaskList) (id : Int) :
    ((deleteTask tl id).2).nextID = tl.nextID := by
  unfold deleteTask
  rcases removeFirstByID tl.tasks id with _ | ts <;> rfl

theorem removeFirstByID_eq_none (l : List Task) (id : Int)
    (h : ∀ t ∈ l, t.id ≠ id) : removeFirstByID l id = none := by
  induction l with
  | nil => rfl
  | cons t ts ih =>
    have ht : (t.id == id) = false := by
      simpa using h t (by simp)
    simp [removeFirstByID, ht]
    exact ih fun u hu => h u (by simp [hu])

theorem findByID_eq_none (l : List Task) (id : Int)
    (h : ∀ t ∈ l, t.id ≠ id) : findByID l id = none := by
  induction l with
  | nil => rfl
  | cons t ts ih =>
    have ht : (t.id == id) = false := by
      simpa using h t (by simp)
    simp [findByID, ht]
    exact ih fun u hu => h u (by simp [hu])

theorem findTaskByID_eq_none (tl : TaskList) (id : Int)
    (h : ∀ t ∈ tl.tasks, t.id ≠ id) : tl.findTaskByID id = none :=
  findByID_eq_none tl.tasks id h

theorem findByID_setFirstByID (l : List Task) (id : Int) (f : Task → Task) (t0 : Task)
    (hf : (f t0).id = t0.id)
    (h : findByID l id = some t0) :
    findByID (setFirstByID l id f) id = some (f t0) := by
  induction l with
  | nil => simp [findByID] at h
  | cons t ts ih =>
    cases ht : (t.id == id) with
    | true =>
      simp only [findByID, ht, if_true, Option.some.injEq] at h
      subst h
      have hft : ((f t).id == id) = true := by
        rw [hf]; exact ht
      simp [setFirstByID, ht, findByID, hft]
    | false =>
      simp only [findByID, ht, Bool.false_eq_true, if_false] at h
      simp only [setFirstByID, ht, Bool.false_eq_true, if_false, findByID]
      exact ih h

theorem unmarshalTask_marshalTask (t : Task) :
    unmarshalTask (marshalTask t) = .ok t := by
  obtain ⟨i, d, s, c, u⟩ := t
  rfl

theorem unmarshalTasks_map (ts : List Task) :
    unmarshalTasks (ts.map marshalTask) = .ok ts := by
  induction ts with
  | nil => rfl
  | cons t ts ih => simp [unmarshalTasks, unmarshalTask_marshalTask, ih]

/-- The invariant carried by any run of `add` and `delete` operations: all
task IDs stay below `nextID`, IDs stay pairwise distinct, `nextID` never
decreases, and the assigned IDs lie in `[tl.nextID, final nextID)` in
strictly increasing order. -/
theorem runOps_invariant (ops : List Op) :
    ∀ (tl : TaskList),
      (∀ t ∈ tl.tasks, t.id < tl.nextID) →
      tl.tasks.Pairwise (fun a b => a.id ≠ b.id) →
      (∀ t ∈ (runOps tl ops).1.tasks, t.id < (runOps tl ops).1.nextID) ∧
      (runOps tl ops).1.tasks.Pairwise (fun a b => a.id ≠ b.id) ∧
      tl.nextID ≤ (runOps tl ops).1.nextID ∧
      (∀ i ∈ (runOps tl ops).2, tl.nextID ≤ i ∧ i < (runOps tl ops).1.nextID) ∧
      (runOps tl ops).2.Pairwise (fun a b => a < b) := by
  induction ops with
  | nil =>
    intro tl h1 h2
    exact ⟨h1, h2, le_refl _, by simp [runOps], by simp [runOps]⟩
  | cons op ops ih =>
    intro tl h1 h2
    cases op with
    | add d now =>
      have h1' : ∀ t ∈ (addTask tl d now).2.tasks, t.id < (addTask tl d now).2.nextID := by
        intro t ht
        simp only [addTask, List.mem_append, List.mem_singleton] at ht
        rcases ht with ht | rfl
        · exact lt_trans (h1 t ht) (by simp [addTask])
        · simp [addTask]
      have h2' : (addTask tl d now).2.tasks.Pairwise (fun a b => a.id ≠ b.id) := by
        simp only [addTask]
        rw [List.pairwise_append]
        refine ⟨h2, List.pairwise_singleton _ _, ?_⟩
        intro a ha b hb
        simp only [List.mem_singleton] at hb
        subst hb
        exact ne_of_lt (h1 a ha)
      obtain ⟨g1, g2, g3, g4, g5⟩ := ih (addTask tl d now).2 h1' h2'
      have hnext : (addTask tl d now).2.nextID = tl.nextID + 1 := rfl
      have hfst : (addTask tl d now).1 = tl.nextID := rfl
      refine ⟨?_, ?_, ?_, ?_, ?_⟩
      · simpa [runOps] using g1
      · simpa [runOps] using g2
      · simp only [runOps]
        omega
      · simp only [runOps]
        intro i hi
        rcases List.mem_cons.mp hi with rfl | hi
        · rw [hfst]
          constructor
          · exact le_refl _
          · omega
        · have := g4 i hi
          omega
      · simp only [runOps]
        rw [List.pairwise_cons]
        refine ⟨?_, g5⟩
        intro i hi
        have := (g4 i hi).1
        rw [hfst]
        omega
    | del id =>
      have hsub := deleteTask_tasks_sublist tl id
      have hnext := deleteTask_nextID tl id
      have h1' : ∀ t ∈ (deleteTask tl id).2.tasks, t.id < (deleteTask tl id).2.nextID := by
        intro t ht
        rw [hnext]
        exact h1 t (hsub.subset ht)
      have h2' := h2.sublist hsub
      obtain ⟨g1, g2, g3, g4, g5⟩ := ih (deleteTask tl id).2 h1' h2'
      rw [hnext] at g3 g4
      exact ⟨by simpa [runOps] using g1, by simpa [runOps] using g2,
        by simpa [runOps] using g3, by simpa [runOps] using g4,
        by simpa [runOps] using g5⟩

/-- Every branch of `runMain` either leaves the file untouched or exits 0. -/
theorem runMain_file_eq_or_exit0 (file : Option FileContent) (args : List String) (now : Int) :
    (runMain file args now).file = file ∨ (runMain file args now).exitCode = 0 := by
  unfold runMain
  repeat' split
  all_goals simp

/-! ### Claim theorems -/

/-- C1: starting from a fresh collection, for every sequence of add and
delete operations, surviving records have pairwise-distinct IDs, the IDs
assigned by add are strictly increasing (so each strictly exceeds every ID
previously assigned, deleted ones included), `nextID` exceeds every ID ever
assigned, and delete never changes `nextID`. -/
theorem add_delete_id_invariants (ops : List Op) :
    (runOps freshTaskList ops).1.tasks.Pairwise (fun a b => a.id ≠ b.id) ∧
    (runOps freshTaskList ops).2.Pairwise (fun a b => a < b) ∧
    (∀ i ∈ (runOps freshTaskList ops).2, i < (runOps freshTaskList ops).1.nextID) ∧
    (∀ (tl : TaskList) (id : Int), ((deleteTask tl id).2).nextID = tl.nextID) := by
  obtain ⟨g1, g2, _, g4, g5⟩ :=
    runOps_invariant ops freshTaskList (by simp [freshTaskList]) (by simp [freshTaskList])
  exact ⟨g2, g5, fun i hi => (g4 i hi).2, deleteTask_nextID⟩

/-- Witness for C1 at a concrete operation sequence. -/
theorem add_delete_id_invariants_witness :
    (runOps freshTaskList [Op.add "a" 0, Op.add "b" 1, Op.del 1, Op.add "c" 2]).2.Pairwise
      (fun a b => a < b) :=
  (add_delete_id_invariants [Op.add "a" 0, Op.add "b" 1, Op.del 1, Op.add "c" 2]).2.1

/-- C2: update, delete and mark on an ID not present in the collection each
return the not-found error naming exactly that ID and leave the collection
(records, fields, order and `nextID`) unchanged. -/
theorem missing_id_noop (tl : TaskList) (id : Int) (d s : String) (now : Int)
    (h : ∀ t ∈ tl.tasks, t.id ≠ id) :
    updateTask tl id d now = (some (notFoundMsg id), tl) ∧
    deleteTask tl id = (some (notFoundMsg id), tl) ∧
    markTask tl id s now = (some (notFoundMsg id), tl) := by
  have hfind : tl.findTaskByID id = none := findTaskByID_eq_none tl id h
  have hrem : removeFirstByID tl.tasks id = none := removeFirstByID_eq_none tl.tasks id h
  refine ⟨?_, ?_, ?_⟩
  · simp [updateTask, hfind]
  · simp [deleteTask, hrem]
  · simp [markTask, hfind]

/-- Witness for C2: ID 5 is absent from a one-task collection. -/
theorem missing_id_noop_witness :
    updateTask ⟨[⟨1, "a", "todo", 0, 0⟩], 2⟩ 5 "d" 9 =
      (some (notFoundMsg 5), ⟨[⟨1, "a", "todo", 0, 0⟩], 2⟩) :=
  (missing_id_noop ⟨[⟨1, "a", "todo", 0, 0⟩], 2⟩ 5 "d" "x" 9 (by decide)).1

/-- C3 counterexample: a process run whose only operation is `list` against a
zero-length `tasks.json` succeeds, yet the stored content afterwards is not
what it was before the run: the unconditional deferred `saveTasks` rewrites
it with the serialized fresh collection. -/
theorem list_run_rewrites_storage_cex :
    (runMain (some FileContent.emptyFile) ["list"] 0).exitCode = 0 ∧
    (runMain (some FileContent.emptyFile) ["list"] 0).file ≠ some FileContent.emptyFile := by
  refine ⟨rfl, fun h => ?_⟩
  have h' : FileContent.jsonFile (marshalTaskList freshTaskList) = FileContent.emptyFile :=
    Option.some.inj h
  exact FileContent.noConfusion h'

/-- C3 amended: a `list` invocation never mutates the collection, but a
successful run whose only operation is `list` still rewrites storage — with
the serialization of the unchanged loaded collection, via the unconditional
deferred save in `main`. -/
theorem list_run_saves_unchanged_collection (file : Option FileContent)
    (rest : List String) (tl : TaskList) (out : List Task) (now : Int)
    (h1 : loadTasks file = .ok tl) (h2 : listTasks tl (rest.headD "") = .ok out) :
    runMain file ("list" :: rest) now = { exitCode := 0, file := some (saveTasks tl) } := by
  unfold runMain
  rw [h1]
  cases rest with
  | nil =>
    simp only [List.headD_nil] at h2
    simp [h2]
  | cons f fs =>
    simp only [List.headD_cons] at h2
    simp [h2]

/-- Witness for C3's amended claim: listing an existing one-task store. -/
theorem list_run_saves_unchanged_collection_witness :
    runMain (some (saveTasks ⟨[⟨1, "a", "todo", 0, 0⟩], 2⟩)) ["list"] 7 =
      { exitCode := 0, file := some (saveTasks ⟨[⟨1, "a", "todo", 0, 0⟩], 2⟩) } :=
  list_run_saves_unchanged_collection (some (saveTasks ⟨[⟨1, "a", "todo", 0, 0⟩], 2⟩))
    [] ⟨[⟨1, "a", "todo", 0, 0⟩], 2⟩ [⟨1, "a", "todo", 0, 0⟩] 7 rfl rfl

/-- C4 counterexample: on an empty collection, `listTasks` returns before the
filter is ever validated, so an invalid filter succeeds instead of failing. -/
theorem invalid_filter_empty_collection_cex :
    listTasks { tasks := [], nextID := 1 } "bogus" = .ok [] := rfl

/-- C4 amended: on a collection holding at least one record, every non-empty
filter outside the enumerated set fails with the invalid-filter error naming
that value and listing the valid options; an empty collection short-circuits
before filter validation. -/
theorem invalid_filter_error (tl : TaskList) (f : String)
    (hne : tl.tasks ≠ []) (h0 : f ≠ "") (h1 : f ≠ StatusTodo)
    (h2 : f ≠ StatusInProgress) (h3 : f ≠ StatusDone) :
    listTasks tl f = .error (invalidFilterMsg f) := by
  have hlen : tl.tasks.length ≠ 0 := by simpa using hne
  simp [listTasks, listFilters, hlen, h0, h1, h2, h3]

/-- Witness for C4's amended claim at a concrete collection and filter. -/
theorem invalid_filter_error_witness :
    listTasks ⟨[⟨1, "a", "todo", 0, 0⟩], 2⟩ "bogus" = .error (invalidFilterMsg "bogus") :=
  invalid_filter_error ⟨[⟨1, "a", "todo", 0, 0⟩], 2⟩ "bogus"
    (by decide) (by decide) (by decide) (by decide) (by decide)

/-- C5: add returns the old `nextID` as the new ID, appends exactly one todo
record with both timestamps equal to `now` at the end, leaves every existing
record unchanged, and increments `nextID` by one. -/
theorem addTask_spec (tl : TaskList) (d : String) (now : Int) :
    (addTask tl d now).1 = tl.nextID ∧
    (addTask tl d now).2.tasks =
      tl.tasks ++ [{ id := tl.nextID, description := d, status := StatusTodo,
                     createdAt := now, updatedAt := now }] ∧
    (addTask tl d now).2.nextID = tl.nextID + 1 :=
  ⟨rfl, rfl, rfl⟩

/-- C6: list with a valid status filter returns exactly the subsequence of
records with that status in insertion order, and the empty filter returns
the whole record sequence. -/
theorem listTasks_filter_spec (tl : TaskList) :
    listTasks tl "" = .ok tl.tasks ∧
    listTasks tl StatusTodo = .ok (tl.tasks.filter (fun t => t.status == StatusTodo)) ∧
    listTasks tl StatusInProgress =
      .ok (tl.tasks.filter (fun t => t.status == StatusInProgress)) ∧
    listTasks tl StatusDone = .ok (tl.tasks.filter (fun t => t.status == StatusDone)) := by
  have e0 : listFilters "" = some (fun _ => true) := rfl
  have e1 : listFilters StatusTodo = some (fun t => t.status == StatusTodo) := rfl
  have e2 : listFilters StatusInProgress = some (fun t => t.status == StatusInProgress) := rfl
  have e3 : listFilters StatusDone = some (fun t => t.status == StatusDone) := rfl
  rcases htl : tl.tasks with _ | ⟨t, ts⟩
  · simp [listTasks, htl]
  · refine ⟨?_, ?_, ?_, ?_⟩
    · simp [listTasks, e0, htl, List.filter_true]
    · simp [listTasks, e1, htl]
    · simp [listTasks, e2, htl]
    · simp [listTasks, e3, htl]

/-- C7: loading a missing or zero-length store yields zero records with
`nextID` 1, and an immediately following add assigns ID 1. -/
theorem empty_store_bootstrap (d : String) (now : Int) :
    loadTasks none = .ok { tasks := [], nextID := 1 } ∧
    loadTasks (some FileContent.emptyFile) = .ok { tasks := [], nextID := 1 } ∧
    (addTask { tasks := [], nextID := 1 } d now).1 = 1 :=
  ⟨rfl, rfl, rfl⟩

/-- C8: saving any collection and loading it back reproduces the collection
field for field, records in the same order, timestamps exact. -/
theorem save_load_round_trip (tl : TaskList) :
    loadTasks (some (saveTasks tl)) = .ok tl := by
  obtain ⟨ts, n⟩ := tl
  have h1 : lookupField
      [("tasks", Json.arr (ts.map marshalTask)), ("nextId", Json.num n)] "tasks" =
      some (Json.arr (ts.map marshalTask)) := rfl
  have h2 : lookupField
      [("tasks", Json.arr (ts.map marshalTask)), ("nextId", Json.num n)] "nextId" =
      some (Json.num n) := rfl
  simp [loadTasks, saveTasks, marshalTaskList, unmarshalTaskList, h1, h2, unmarshalTasks_map]

/-- C9: a process run that fails at any step — load failure, missing or
invalid arguments, a not-found ID, an invalid filter, an unknown command —
exits through `os.Exit(1)`, which skips the deferred save, so the stored
file is exactly what it was before the run; in particular a file that fails
to parse is never overwritten. -/
theorem failing_run_preserves_file (file : Option FileContent) (args : List String)
    (now : Int) (h : (runMain file args now).exitCode ≠ 0) :
    (runMain file args now).file = file :=
  (runMain_file_eq_or_exit0 file args now).resolve_right h

/-- Witness for C9: an `add` run against an unparseable store fails and
leaves the store as it was. -/
theorem failing_run_preserves_file_witness :
    (runMain (some FileContent.malformed) ["add", "x"] 0).file =
      some FileContent.malformed :=
  failing_run_preserves_file (some FileContent.malformed) ["add", "x"] 0 (by decide)

/-- C10: the generic mark operation validates nothing: for any status string
whatsoever, marking a present ID succeeds and stores that string as the
record's status (the command surface only ever passes the in-progress and
done constants). -/
theorem markTask_no_validation (tl : TaskList) (id : Int) (s : String) (now : Int)
    (t0 : Task) (h : tl.findTaskByID id = some t0) :
    (markTask tl id s now).1 = none ∧
    (markTask tl id s now).2.findTaskByID id =
      some { t0 with status := s, updatedAt := now } ∧
    (markTask tl id s now).2.nextID = tl.nextID := by
  refine ⟨by simp [markTask, h], ?_, by simp [markTask, h]⟩
  simp only [markTask, h]
  exact findByID_setFirstByID tl.tasks id _ t0 rfl h

/-- Witness for C10: marking with a string outside the status enumeration. -/
theorem markTask_no_validation_witness :
    (markTask ⟨[⟨1, "a", "todo", 0, 0⟩], 2⟩ 1 "bogus-status" 9).1 = none :=
  (markTask_no_validation ⟨[⟨1, "a", "todo", 0, 0⟩], 2⟩ 1 "bogus-status" 9
    ⟨1, "a", "todo", 0, 0⟩ (by decide)).1

end TaskTracker
